import Mathlib

/-!
Verification of the ISC-Multiplex JSON merge engine (`src/json_modifier.py`).

The program merges a row-oriented CSV table and a list of override
directives into a JSON document, addressing target locations with path
expressions.  The Python source delegates path evaluation to the external
`jsonpath_ng` library; that library's code is not part of this repository,
so the path layer (`parsePath`, `findJson`, `upsert`, `removeSteps`) is
modelled from the specification's PathResolver contract (spec sections 4.1
and 9: root anchor, dot-separated field names, bracketed integer indices;
locate / locate-or-create / locate-parent-and-key).  Everything above that
layer is translated directly from the Python source, keeping its names.

Python `None` (JSON null), runtime types, truthiness, and the caught /
uncaught exception structure of the source are modelled explicitly:
fallible operations return `Except Err`, and a `try/except` block in the
source becomes a `match` that converts the error case to the handler's
result.
-/

namespace JsonModifier

/-- A JSON document: the tree of maps and sequences the engine mutates.
Python floats are carried as their source token; the engine only ever
inspects a float's runtime type (and, for directive truthiness, whether
its decimal mantissa is zero), never its IEEE-754 value. -/
inductive Json where
  | null
  | bool (b : Bool)
  | int (n : Int)
  | float (tok : String)
  | str (s : String)
  | arr (elems : List Json)
  | obj (entries : List (String × Json))

/-- One step of a parsed path: a map key or a sequence index. -/
inductive Step where
  | field (name : String)
  | index (i : Nat)
  deriving DecidableEq, Repr

/-- Errors that escape the engine's functions (uncaught Python exceptions). -/
inductive Err where
  | parseErr
  | conflict
  | typeErr
  | attrErr
  deriving DecidableEq, Repr

/-- The closed set of runtime types `get_type_from_value` can report
(`type(None)`, `str`, `int`, `float`, `bool`, `list`, `dict`). -/
inductive PyType where
  | noneT
  | strT
  | intT
  | floatT
  | boolT
  | listT
  | dictT
  deriving DecidableEq, Repr

/-- Runtime type of a value, as in `get_type_from_value` (source lines 83-87). -/
def get_type_from_value : Json → PyType
  | Json.null => PyType.noneT
  | Json.bool _ => PyType.boolT
  | Json.int _ => PyType.intT
  | Json.float _ => PyType.floatT
  | Json.str _ => PyType.strT
  | Json.arr _ => PyType.listT
  | Json.obj _ => PyType.dictT

/-- First value stored under a key, as Python `dict` lookup on the
string-keyed maps of a document (keys are unique in any loaded document). -/
def lookupKey : List (String × Json) → String → Option Json
  | [], _ => none
  | (k, v) :: rest, f => if k = f then some v else lookupKey rest f

/-- Python `d[f] = v`: replace the value at an existing key in place,
otherwise append the new key at the end (insertion order is kept). -/
def insertKey : List (String × Json) → String → Json → List (String × Json)
  | [], f, v => [(f, v)]
  | (k, w) :: rest, f, v =>
      if k = f then (f, v) :: rest else (k, w) :: insertKey rest f v

/-- Python `del d[f]`: drop the entry stored under a key. -/
def deleteKey (kvs : List (String × Json)) (f : String) : List (String × Json) :=
  kvs.filter (fun kv => ¬(kv.1 = f))

/-- Characters allowed inside a dotted field name of a path expression. -/
def isFieldChar (c : Char) : Bool :=
  ¬(c = '.') ∧ ¬(c = '[') ∧ ¬(c = ']') ∧ ¬(c = '$')

/-- Digit run to a number, most significant first. -/
def digitsToNat (cs : List Char) : Nat :=
  cs.foldl (fun n c => n * 10 + (c.toNat - '0'.toNat)) 0

/-- Modelled from the spec: the body of the path grammar of section 9
(the `jsonpath_ng` `parse` of the addressing forms the engine uses):
after the root anchor, a sequence of `.name` field steps and `[k]`
integer index steps; anything else is a parse error. -/
def parseSteps : Nat → List Char → Except Err (List Step)
  | _, [] => Except.ok []
  | 0, _ => Except.error Err.parseErr
  | fuel + 1, '.' :: rest =>
      let name := rest.takeWhile isFieldChar
      if name.isEmpty then Except.error Err.parseErr
      else
        match parseSteps fuel (rest.drop name.length) with
        | Except.ok steps => Except.ok (Step.field (String.mk name) :: steps)
        | Except.error e => Except.error e
  | fuel + 1, '[' :: rest =>
      let digits := rest.takeWhile (fun c => c.isDigit)
      if digits.isEmpty then Except.error Err.parseErr
      else
        match rest.drop digits.length with
        | ']' :: rest2 =>
            match parseSteps fuel rest2 with
            | Except.ok steps => Except.ok (Step.index (digitsToNat digits) :: steps)
            | Except.error e => Except.error e
        | _ => Except.error Err.parseErr
  | _ + 1, _ => Except.error Err.parseErr

/-- Modelled from the spec: parsing an addressing string (`jsonpath_ng`
`parse`, section 9 grammar): a `$` root anchor followed by field and
index steps. -/
def parsePath (s : String) : Except Err (List Step) :=
  match s.data with
  | '$' :: rest => parseSteps (rest.length + 1) rest
  | _ => Except.error Err.parseErr

/-- Modelled from the spec: `resolve` of PathResolver (section 4.1), the
`find` evaluation of a parsed path: walk the document, `none` when any
step fails to match. -/
def findJson : Json → List Step → Option Json
  | d, [] => some d
  | Json.obj kvs, Step.field f :: rest =>
      match lookupKey kvs f with
      | some c => findJson c rest
      | none => none
  | Json.arr xs, Step.index i :: rest =>
      match xs.get? i with
      | some c => findJson c rest
      | none => none
  | _, _ => none

/-- Modelled from the spec: `upsert` of PathResolver (section 4.1, the
`update_or_create` of `jsonpath_ng`): overwrite an existing location,
create missing intermediate maps (never sequences) along the path, and
fail loudly with a PathConflict instead of coercing an existing prefix
whose shape is incompatible with the next step (section 7). -/
def upsert : Json → List Step → Json → Except Err Json
  | _, [], v => Except.ok v
  | Json.obj kvs, Step.field f :: rest, v =>
      let c := (lookupKey kvs f).getD (Json.obj [])
      match upsert c rest v with
      | Except.ok c' => Except.ok (Json.obj (insertKey kvs f c'))
      | Except.error e => Except.error e
  | Json.arr xs, Step.index i :: rest, v =>
      match xs.get? i with
      | some c =>
          match upsert c rest v with
          | Except.ok c' => Except.ok (Json.arr (xs.set i c'))
          | Except.error e => Except.error e
      | none => Except.error Err.conflict
  | _, _ :: _, _ => Except.error Err.conflict

/-- Modelled from the spec: the destructive part of `remove` of
PathResolver (section 4.1): navigate to the parent of the final step and
delete the addressed entry (map key or sequence index).  Only called when
the full path resolves, so the shape checks of the source's
`remove_value_by_path` (dict parent with string key, list parent with
integer index) are the cases listed here. -/
def removeGo : Json → List Step → Json
  | d, [] => d
  | Json.obj kvs, Step.field f :: rest =>
      match rest with
      | [] => Json.obj (deleteKey kvs f)
      | _ :: _ =>
          match lookupKey kvs f with
          | some c => Json.obj (insertKey kvs f (removeGo c rest))
          | none => Json.obj kvs
  | Json.arr xs, Step.index i :: rest =>
      match rest with
      | [] => Json.arr (xs.eraseIdx i)
      | _ :: _ =>
          match xs.get? i with
          | some c => Json.arr (xs.set i (removeGo c rest))
          | none => Json.arr xs
  | d, _ :: _ => d

/-- Modelled from the spec: `remove` on a parsed path.  A root path has no
final step (in the source, reading `match.path.index` on the root match
raises and is caught), and a path that does not resolve is a silent
no-op. -/
def removeSteps (doc : Json) (steps : List Step) : Json :=
  match steps with
  | [] => doc
  | _ :: _ => if (findJson doc steps).isSome then removeGo doc steps else doc

/-- Read through a path, as `get_value_by_path` (source lines 46-53):
parse errors are caught and a missing match returns `None` — and a stored
JSON null is returned as the same Python `None`, indistinguishable from an
absent path. -/
def get_value_by_path (doc : Json) (path : String) : Option Json :=
  match parsePath path with
  | Except.error _ => none
  | Except.ok steps =>
      match findJson doc steps with
      | some Json.null => none
      | some v => some v
      | none => none

/-- Write through a path, as `set_value_by_path` (source lines 55-58):
parse and update errors are NOT caught here and propagate to the caller. -/
def set_value_by_path (doc : Json) (path : String) (v : Json) : Except Err Json :=
  match parsePath path with
  | Except.error e => Except.error e
  | Except.ok steps => upsert doc steps v

/-- Delete through a path, as `remove_value_by_path` (source lines 60-81):
every exception inside is caught, so the function always returns a
document; a parse failure or unresolved path leaves it unchanged. -/
def remove_value_by_path (doc : Json) (path : String) : Json :=
  match parsePath path with
  | Except.error _ => doc
  | Except.ok steps => removeSteps doc steps

/-- First value stored under a key in an association list (Python `dict`
lookup; keys are unique in any dictionary the program builds). -/
def lookupVal {α : Type} : List (String × α) → String → Option α
  | [], _ => none
  | (k, v) :: rest, f => if k = f then some v else lookupVal rest f

/-- Whitespace stripped by Python `int()` and `float()` around a numeric
literal. -/
def isPyWs (c : Char) : Bool :=
  c = ' ' ∨ c = '\t' ∨ c = '\n' ∨ c = '\r' ∨ c = '\x0B' ∨ c = '\x0C'

/-- Strip leading and trailing Python numeric-literal whitespace. -/
def stripPyWs (cs : List Char) : List Char :=
  ((cs.dropWhile isPyWs).reverse.dropWhile isPyWs).reverse

/-- Tail of a digit run that may contain single underscores between
digits, as Python numeric literals allow. -/
def uDigitsTail : List Char → Bool
  | [] => true
  | '_' :: c :: rest => c.isDigit && uDigitsTail rest
  | '_' :: [] => false
  | c :: rest => c.isDigit && uDigitsTail rest

/-- A nonempty digit run with optional single underscores between digits
(the digit grammar of Python `int()` and `float()`). -/
def validUDigits : List Char → Bool
  | [] => false
  | c :: rest => c.isDigit && uDigitsTail rest

/-- Numeric value of a digit run, ignoring underscores. -/
def natOfUDigits (cs : List Char) : Nat :=
  digitsToNat (cs.filter (fun c => c.isDigit))

/-- Python `int(s)` on a string: optional surrounding whitespace, one
optional sign, then digits with optional underscores; `none` models the
`ValueError` of an unparseable token. -/
def parseIntPy (s : String) : Option Int :=
  match stripPyWs s.data with
  | '+' :: rest => if validUDigits rest then some (natOfUDigits rest : Int) else none
  | '-' :: rest => if validUDigits rest then some (-(natOfUDigits rest : Int)) else none
  | cs => if validUDigits cs then some (natOfUDigits cs) else none

/-- Drop one optional leading sign character. -/
def dropSign : List Char → List Char
  | '+' :: rest => rest
  | '-' :: rest => rest
  | cs => cs

/-- Split off the maximal leading run of digit or underscore characters. -/
def splitURun (cs : List Char) : List Char × List Char :=
  (cs.takeWhile (fun c => c.isDigit || c = '_'),
   cs.dropWhile (fun c => c.isDigit || c = '_'))

/-- Accept an optional exponent part of a Python float literal (or the end
of the token). -/
def acceptExpOrEnd : List Char → Bool
  | [] => true
  | 'e' :: rest =>
      let rest2 := dropSign rest
      let run := splitURun rest2
      validUDigits run.1 && run.2.isEmpty
  | 'E' :: rest =>
      let rest2 := dropSign rest
      let run := splitURun rest2
      validUDigits run.1 && run.2.isEmpty
  | _ => false

/-- Accept the decimal body of a Python float literal:
`digits [. [digits]] [exp]` or `. digits [exp]`. -/
def acceptDec (cs : List Char) : Bool :=
  let ip := splitURun cs
  match ip.2 with
  | '.' :: rest2 =>
      let fp := splitURun rest2
      if ip.1.isEmpty then validUDigits fp.1 && acceptExpOrEnd fp.2
      else validUDigits ip.1 && (fp.1.isEmpty || validUDigits fp.1) && acceptExpOrEnd fp.2
  | _ => ¬ip.1.isEmpty && validUDigits ip.1 && acceptExpOrEnd ip.2

/-- Python `float(s)` on a string, modelled as an acceptor: optional
whitespace and sign, then `inf`, `infinity`, `nan` (case-insensitive) or a
decimal literal.  On success the stripped token is kept as the float's
carrier (the engine never uses the IEEE-754 value of a float, only its
runtime type and, for truthiness, whether its mantissa is zero; rounding
and underflow are therefore not modelled).  `none` models `ValueError`. -/
def parseFloatPy (s : String) : Option String :=
  let cs := stripPyWs s.data
  let body := dropSign cs
  let low := body.map Char.toLower
  if low = ['i', 'n', 'f'] then some (String.mk cs)
  else if low = ['i', 'n', 'f', 'i', 'n', 'i', 't', 'y'] then some (String.mk cs)
  else if low = ['n', 'a', 'n'] then some (String.mk cs)
  else if acceptDec body then some (String.mk cs) else none

/-- Whitespace skipped between JSON tokens by `json.loads`. -/
def jlSkipWs (cs : List Char) : List Char :=
  cs.dropWhile (fun c => c = ' ' ∨ c = '\t' ∨ c = '\n' ∨ c = '\r')

/-- Hexadecimal digit value for a `\u` escape. -/
def hexVal (c : Char) : Option Nat :=
  if c.isDigit then some (c.toNat - '0'.toNat)
  else if 'a' ≤ c ∧ c ≤ 'f' then some (c.toNat - 'a'.toNat + 10)
  else if 'A' ≤ c ∧ c ≤ 'F' then some (c.toNat - 'A'.toNat + 10)
  else none

/-- Parse the remainder of a JSON string literal (after the opening
quote): ordinary characters above `0x1F`, backslash escapes, and
`\uXXXX` code units. -/
def jlString : Nat → List Char → Except Err (String × List Char)
  | 0, _ => Except.error Err.parseErr
  | _ + 1, [] => Except.error Err.parseErr
  | fuel + 1, c :: rest =>
      if c = '"' then Except.ok ("", rest)
      else if c = '\\' then
        match rest with
        | [] => Except.error Err.parseErr
        | e :: rest2 =>
            let unescaped : Option (Char × List Char) :=
              if e = '"' then some ('"', rest2)
              else if e = '\\' then some ('\\', rest2)
              else if e = '/' then some ('/', rest2)
              else if e = 'b' then some ('\x08', rest2)
              else if e = 'f' then some ('\x0C', rest2)
              else if e = 'n' then some ('\n', rest2)
              else if e = 'r' then some ('\r', rest2)
              else if e = 't' then some ('\t', rest2)
              else
                if e = 'u' then
                  match rest2 with
                  | h1 :: h2 :: h3 :: h4 :: rest3 =>
                      match hexVal h1, hexVal h2, hexVal h3, hexVal h4 with
                      | some a, some b, some c2, some d =>
                          some (Char.ofNat (((a * 16 + b) * 16 + c2) * 16 + d), rest3)
                      | _, _, _, _ => none
                  | _ => none
                else none
            match unescaped with
            | some (ch, rest') =>
                match jlString fuel rest' with
                | Except.ok (s, rem) => Except.ok (String.mk (ch :: s.data), rem)
                | Except.error err => Except.error err
            | none => Except.error Err.parseErr
      else if c.toNat < 32 then Except.error Err.parseErr
      else
        match jlString fuel rest with
        | Except.ok (s, rem) => Except.ok (String.mk (c :: s.data), rem)
        | Except.error err => Except.error err

/-- Characters that may occur in a JSON number token. -/
def isJsonNumChar (c : Char) : Bool :=
  c.isDigit || c = '-' || c = '+' || c = '.' || c = 'e' || c = 'E'

/-- Strict JSON integer part: `0` or a nonzero digit followed by digits. -/
def jsonIntDigits : List Char → Bool
  | [] => false
  | '0' :: rest => rest.isEmpty
  | c :: rest => c.isDigit && rest.all (fun d => d.isDigit)

/-- Validate a JSON number token and classify it: `some true` for a float
(fraction or exponent present), `some false` for an integer. -/
def jsonNumShape (cs : List Char) : Option Bool :=
  let body := match cs with
    | '-' :: rest => rest
    | _ => cs
  let ipRun := body.takeWhile (fun c => c.isDigit)
  let afterInt := body.drop ipRun.length
  if ¬jsonIntDigits ipRun then none
  else
    match afterInt with
    | [] => some false
    | '.' :: rest =>
        let fpRun := rest.takeWhile (fun c => c.isDigit)
        if fpRun.isEmpty then none
        else
          match rest.drop fpRun.length with
          | [] => some true
          | 'e' :: rest2 =>
              let eRun := (dropSign rest2).takeWhile (fun c => c.isDigit)
              if eRun.isEmpty ∨ ¬((dropSign rest2).drop eRun.length).isEmpty then none
              else some true
          | 'E' :: rest2 =>
              let eRun := (dropSign rest2).takeWhile (fun c => c.isDigit)
              if eRun.isEmpty ∨ ¬((dropSign rest2).drop eRun.length).isEmpty then none
              else some true
          | _ => none
    | 'e' :: rest2 =>
        let eRun := (dropSign rest2).takeWhile (fun c => c.isDigit)
        if eRun.isEmpty ∨ ¬((dropSign rest2).drop eRun.length).isEmpty then none
        else some true
    | 'E' :: rest2 =>
        let eRun := (dropSign rest2).takeWhile (fun c => c.isDigit)
        if eRun.isEmpty ∨ ¬((dropSign rest2).drop eRun.length).isEmpty then none
        else some true
    | _ => none

/-- Numeric value of a JSON integer token (an optional minus sign and
digits). -/
def jsonIntValue (cs : List Char) : Int :=
  match cs with
  | '-' :: rest => -(digitsToNat (rest.filter (fun c => c.isDigit)) : Int)
  | _ => (digitsToNat (cs.filter (fun c => c.isDigit)) : Int)

/-- Combine one parsed object member with the members parsed after it: a
repeated key keeps its first position and its last value, as a Python
`dict` built left to right. -/
def insertKeyMembers (k : String) (v : Json) (kvs : List (String × Json)) : List (String × Json) :=
  match lookupVal kvs k with
  | some w => (k, w) :: deleteKey kvs k
  | none => (k, v) :: kvs

mutual

/-- Parse one JSON value, as the recursive descent of `json.loads`
(which also accepts `NaN`, `Infinity` and `-Infinity`).  The fuel
argument only bounds recursion depth; `jsonLoads` supplies enough for
any input it is called on. -/
def jlValue : Nat → List Char → Except Err (Json × List Char)
  | 0, _ => Except.error Err.parseErr
  | fuel + 1, cs =>
      match jlSkipWs cs with
      | 'n' :: 'u' :: 'l' :: 'l' :: rest => Except.ok (Json.null, rest)
      | 't' :: 'r' :: 'u' :: 'e' :: rest => Except.ok (Json.bool true, rest)
      | 'f' :: 'a' :: 'l' :: 's' :: 'e' :: rest => Except.ok (Json.bool false, rest)
      | 'N' :: 'a' :: 'N' :: rest => Except.ok (Json.float "nan", rest)
      | 'I' :: 'n' :: 'f' :: 'i' :: 'n' :: 'i' :: 't' :: 'y' :: rest =>
          Except.ok (Json.float "inf", rest)
      | '-' :: 'I' :: 'n' :: 'f' :: 'i' :: 'n' :: 'i' :: 't' :: 'y' :: rest =>
          Except.ok (Json.float "-inf", rest)
      | '"' :: rest =>
          match jlString (rest.length + 1) rest with
          | Except.ok (s, rem) => Except.ok (Json.str s, rem)
          | Except.error e => Except.error e
      | '\x5b' :: rest =>
          match jlSkipWs rest with
          | ']' :: rest2 => Except.ok (Json.arr [], rest2)
          | _ =>
              match jlElems fuel rest with
              | Except.ok (xs, rem) => Except.ok (Json.arr xs, rem)
              | Except.error e => Except.error e
      | '\x7b' :: rest =>
          match jlSkipWs rest with
          | '\x7d' :: rest2 => Except.ok (Json.obj [], rest2)
          | _ =>
              match jlMembers fuel rest with
              | Except.ok (kvs, rem) => Except.ok (Json.obj kvs, rem)
              | Except.error e => Except.error e
      | other =>
          let tok := other.takeWhile isJsonNumChar
          match jsonNumShape tok with
          | some true => Except.ok (Json.float (String.mk tok), other.drop tok.length)
          | some false => Except.ok (Json.int (jsonIntValue tok), other.drop tok.length)
          | none => Except.error Err.parseErr

/-- Parse the elements of a nonempty JSON array (after the opening
bracket), comma separated, up to the closing bracket. -/
def jlElems : Nat → List Char → Except Err (List Json × List Char)
  | 0, _ => Except.error Err.parseErr
  | fuel + 1, cs =>
      match jlValue fuel cs with
      | Except.error e => Except.error e
      | Except.ok (v, rest) =>
          match jlSkipWs rest with
          | ',' :: rest2 =>
              match jlElems fuel rest2 with
              | Except.ok (xs, rem) => Except.ok (v :: xs, rem)
              | Except.error e => Except.error e
          | ']' :: rest2 => Except.ok ([v], rest2)
          | _ => Except.error Err.parseErr

/-- Parse the members of a nonempty JSON object (after the opening
brace); a duplicate key keeps its first position and the last value,
as a Python `dict` built left to right. -/
def jlMembers : Nat → List Char → Except Err (List (String × Json) × List Char)
  | 0, _ => Except.error Err.parseErr
  | fuel + 1, cs =>
      match jlSkipWs cs with
      | '"' :: rest =>
          match jlString (rest.length + 1) rest with
          | Except.error e => Except.error e
          | Except.ok (k, rest2) =>
              match jlSkipWs rest2 with
              | ':' :: rest3 =>
                  match jlValue fuel rest3 with
                  | Except.error e => Except.error e
                  | Except.ok (v, rest4) =>
                      match jlSkipWs rest4 with
                      | ',' :: rest5 =>
                          match jlMembers fuel rest5 with
                          | Except.ok (kvs, rem) => Except.ok (insertKeyMembers k v kvs, rem)
                          | Except.error e => Except.error e
                      | '\x7d' :: rest5 => Except.ok ([(k, v)], rest5)
                      | _ => Except.error Err.parseErr
              | _ => Except.error Err.parseErr
      | _ => Except.error Err.parseErr

end

/-- Python `json.loads` on the whole input: one JSON value, optionally
surrounded by whitespace, with nothing after it. -/
def jsonLoads (s : String) : Except Err Json :=
  match jlValue (s.length * 4 + 16) s.data with
  | Except.error e => Except.error e
  | Except.ok (v, rest) =>
      if (jlSkipWs rest).isEmpty then Except.ok v else Except.error Err.parseErr

/-- Body of `cast_value` (source lines 89-107) without its outer
`try/except`: dispatch on the target runtime type.  String target is the
identity; an unmatched target (the trailing `return value` for
`type(None)`) also returns the string; numeric parses and `json.loads`
can fail.  An empty token for a list or dict target yields the empty
container before `json.loads` is reached. -/
def castValueBody (value : String) (target : PyType) : Except Err Json :=
  match target with
  | PyType.strT => Except.ok (Json.str value)
  | PyType.intT =>
      match parseIntPy value with
      | some n => Except.ok (Json.int n)
      | none => Except.error Err.typeErr
  | PyType.floatT =>
      match parseFloatPy value with
      | some tok => Except.ok (Json.float tok)
      | none => Except.error Err.typeErr
  | PyType.boolT =>
      let low := value.data.map Char.toLower
      Except.ok (Json.bool
        (low == ['t', 'r', 'u', 'e'] || low == ['1'] || low == ['y', 'e', 's']))
  | PyType.listT => if value = "" then Except.ok (Json.arr []) else jsonLoads value
  | PyType.dictT => if value = "" then Except.ok (Json.obj []) else jsonLoads value
  | PyType.noneT => Except.ok (Json.str value)

/-- Cast a raw string to a target runtime type, as `cast_value` (source
lines 89-107): any failure of the body is caught and the original string
is returned unchanged (fail-soft, never raises). -/
def cast_value (value : String) (target : PyType) : Json :=
  match castValueBody value target with
  | Except.ok v => v
  | Except.error _ => Json.str value

/-- Truthiness of a float token for Python `if`: `nan` and `inf` are
truthy, a decimal token is truthy when its mantissa has a nonzero digit
(IEEE-754 underflow of tiny exponents is not modelled). -/
def floatTokTruthy (tok : String) : Bool :=
  let low := tok.data.map Char.toLower
  if low.any (fun c => c = 'n' ∨ c = 'i') then true
  else (low.takeWhile (fun c => ¬(c = 'e'))).any (fun c => c.isDigit ∧ ¬(c = '0'))

/-- Python truthiness of a JSON value (`if not path`, `if not operation`
in the source). -/
def pyTruthy : Json → Bool
  | Json.null => false
  | Json.bool b => b
  | Json.int n => decide (n ≠ 0)
  | Json.float tok => floatTokTruthy tok
  | Json.str s => ¬(s = "")
  | Json.arr l => ¬l.isEmpty
  | Json.obj l => ¬l.isEmpty

/-- The `isinstance(current_value, (list, dict)) and not
isinstance(casted_value, type(current_value))` rejection of
`update_from_csv` (source line 121): a container-typed current value
whose casted replacement is not the same kind of container. -/
def containerMismatch (current casted : Json) : Bool :=
  match current with
  | Json.arr _ =>
      match casted with
      | Json.arr _ => false
      | _ => true
  | Json.obj _ =>
      match casted with
      | Json.obj _ => false
      | _ => true
  | _ => false

/-- One mapped field of `update_from_csv` (source lines 117-133): if a
current value exists (and is not null), cast to its type, skip a
container mismatch, and write — with every exception of that branch
caught.  Otherwise cast with the default string rule and create the
path; the write of this create branch is outside any `try` and its
errors propagate. -/
def csvFieldStep (doc : Json) (json_path : String) (new_value : String) : Except Err Json :=
  match get_value_by_path doc json_path with
  | some current =>
      let casted := cast_value new_value (get_type_from_value current)
      if containerMismatch current casted then Except.ok doc
      else
        match set_value_by_path doc json_path casted with
        | Except.ok d' => Except.ok d'
        | Except.error _ => Except.ok doc
  | none => set_value_by_path doc json_path (cast_value new_value PyType.strT)

/-- Update a document from one CSV row, as `update_from_csv` (source
lines 110-133): walk the column-to-path mapping in order, skipping the
`ID` column and columns absent from the row. -/
def update_from_csv (row : List (String × String)) :
    Json → List (String × String) → Except Err Json
  | doc, [] => Except.ok doc
  | doc, (csv_key, json_path) :: rest =>
      match (if csv_key = "ID" then none else lookupVal row csv_key) with
      | none => update_from_csv row doc rest
      | some raw =>
          match csvFieldStep doc json_path raw with
          | Except.ok d' => update_from_csv row d' rest
          | Except.error e => Except.error e

/-- `entry.get("path")` and friends on a directive: the path argument a
directive supplies may be any JSON value; `get_value_by_path` catches the
resulting parse error for a non-string (returning `None`). -/
def getValueByPathJ (doc : Json) (p : Json) : Option Json :=
  match p with
  | Json.str s => get_value_by_path doc s
  | _ => none

/-- `set_value_by_path` on a directive-supplied path: a non-string path
raises out of `parse`, uncaught. -/
def setValueByPathJ (doc : Json) (p : Json) (v : Json) : Except Err Json :=
  match p with
  | Json.str s => set_value_by_path doc s v
  | _ => Except.error Err.typeErr

/-- `remove_value_by_path` on a directive-supplied path: everything is
caught inside, so a non-string path is a no-op. -/
def removeValueByPathJ (doc : Json) (p : Json) : Json :=
  match p with
  | Json.str s => remove_value_by_path doc s
  | _ => doc

/-- Python `operation == "update"` where `operation` is an arbitrary JSON
value: only equal strings compare equal. -/
def opEq (op : Json) (s : String) : Bool :=
  match op with
  | Json.str t => t == s
  | _ => false

/-- One directive of `update_from_static_config` (source lines 138-168):
validate `path` and `operation` (truthiness, then membership in
update/remove), require `value` for an update, compare runtime types
against an existing (non-null) current value, and write or remove.  The
skip branches return the document unchanged; the two `set_value_by_path`
calls are outside any `try` and their errors propagate. -/
def applyStaticEntry (doc : Json) (entry : List (String × Json)) : Except Err Json :=
  let path := (lookupVal entry "path").getD Json.null
  let operation := (lookupVal entry "operation").getD Json.null
  let value := (lookupVal entry "value").getD Json.null
  if ¬pyTruthy path ∨ ¬pyTruthy operation then Except.ok doc
  else if ¬(opEq operation "update" || opEq operation "remove") then Except.ok doc
  else if opEq operation "update" then
    if (lookupVal entry "value").isNone then Except.ok doc
    else
      match getValueByPathJ doc path with
      | some current =>
          if get_type_from_value current ≠ get_type_from_value value then Except.ok doc
          else setValueByPathJ doc path value
      | none => setValueByPathJ doc path value
  else Except.ok (removeValueByPathJ doc path)

/-- Apply an ordered list of directives, as `update_from_static_config`
(source lines 136-170); `entry.get` on a non-dict entry raises, uncaught. -/
def update_from_static_config : Json → List Json → Except Err Json
  | doc, [] => Except.ok doc
  | doc, e :: rest =>
      match e with
      | Json.obj kvs =>
          match applyStaticEntry doc kvs with
          | Except.ok d' => update_from_static_config d' rest
          | Except.error err => Except.error err
      | _ => Except.error Err.attrErr

/-- Identifier correlation of the orchestrator:
`row.get("ID") == obj.get("id")` — `dict.get` yields `None` for an absent
key and for a stored null, and only equal strings (or two `None`s)
compare equal; `.get` on a non-dict element raises. -/
def rowMatches (row : List (String × String)) (o : Json) : Except Err Bool :=
  match o with
  | Json.obj kvs =>
      Except.ok
        (match lookupVal row "ID", lookupVal kvs "id" with
         | none, none => true
         | none, some Json.null => true
         | some s, some (Json.str t) => s == t
         | _, _ => false)
  | _ => Except.error Err.attrErr

/-- The body of the orchestrator's inner loop for one row and one list
element (source lines 207-210): update the element from the row when the
identifiers match. -/
def stepObj (mapping : List (String × String)) (row : List (String × String))
    (o : Json) : Except Err Json :=
  match rowMatches row o with
  | Except.error e => Except.error e
  | Except.ok true => update_from_csv row o mapping
  | Except.ok false => Except.ok o

/-- Apply a fallible transformation to every list element in order,
stopping at the first raised exception (a Python `for` loop over the
document list). -/
def mapE (f : Json → Except Err Json) : List Json → Except Err (List Json)
  | [] => Except.ok []
  | o :: os =>
      match f o with
      | Except.error e => Except.error e
      | Except.ok o' =>
          match mapE f os with
          | Except.error e => Except.error e
          | Except.ok os' => Except.ok (o' :: os')

/-- The CSV pass of the orchestrator's list branch (source lines
206-210): for every row in order, update every matching element. -/
def csvPhase (mapping : List (String × String)) :
    List (List (String × String)) → List Json → Except Err (List Json)
  | [], docs => Except.ok docs
  | row :: rest, docs =>
      match mapE (stepObj mapping row) docs with
      | Except.ok docs' => csvPhase mapping rest docs'
      | Except.error e => Except.error e

/-- The orchestrator's list branch (source lines 206-215): the CSV pass
over all rows, then the static-config pass over every element in list
order. -/
def mainListBranch (docs : List Json) (rows : List (List (String × String)))
    (mapping : List (String × String)) (config : List Json) : Except Err (List Json) :=
  match csvPhase mapping rows docs with
  | Except.ok mid => mapE (fun o => update_from_static_config o config) mid
  | Except.error e => Except.error e

/-- All CSV updates a single list element receives, in row order: the
per-element view of the CSV pass. -/
def perObjCsv (mapping : List (String × String)) :
    List (List (String × String)) → Json → Except Err Json
  | [], o => Except.ok o
  | row :: rest, o =>
      match stepObj mapping row o with
      | Except.ok o' => perObjCsv mapping rest o'
      | Except.error e => Except.error e

/-- The full per-element pipeline of the list branch: all matching CSV
row updates in row order, then all directives. -/
def perObj (mapping : List (String × String)) (rows : List (List (String × String)))
    (config : List Json) (o : Json) : Except Err Json :=
  match perObjCsv mapping rows o with
  | Except.ok o' => update_from_static_config o' config
  | Except.error e => Except.error e

/-- A Python `None` view of a value: a stored JSON null is the same
`None` as an absent value. -/
def pyView : Json → Option Json
  | Json.null => none
  | v => some v

/-- A step list whose final step is a map-key (field) step. -/
def isFieldLast : List Step → Bool
  | [] => false
  | [Step.field _] => true
  | [Step.index _] => false
  | _ :: rest => isFieldLast rest

theorem lookupKey_insertKey (kvs : List (String × Json)) (f : String) (v : Json) :
    lookupKey (insertKey kvs f v) f = some v := by
  induction kvs with
  | nil => simp [insertKey, lookupKey]
  | cons kv rest ih =>
      by_cases h : kv.1 = f
      · simp [insertKey, h, lookupKey]
      · simpa [insertKey, h, lookupKey] using ih

theorem lookupKey_deleteKey (kvs : List (String × Json)) (f : String) :
    lookupKey (deleteKey kvs f) f = none := by
  induction kvs with
  | nil => simp [deleteKey, lookupKey]
  | cons kv rest ih =>
      by_cases h : kv.1 = f
      · simpa [deleteKey, h, lookupKey] using ih
      · simpa [deleteKey, h, lookupKey] using ih

theorem get?_set_self {α : Type} (xs : List α) (i : Nat) (c c' : α)
    (h : xs.get? i = some c) : (xs.set i c').get? i = some c' := by
  induction xs generalizing i with
  | nil => simp [List.get?] at h
  | cons x rest ih =>
      cases i with
      | zero => simp [List.set]
      | succ j =>
          simp only [List.get?] at h
          simpa [List.set] using ih j h

/-- After a successful `upsert`, the written value is found at the path
(locate-or-create followed by locate). -/
theorem upsert_find (steps : List Step) (d v d' : Json)
    (h : upsert d steps v = Except.ok d') : findJson d' steps = some v := by
  induction steps generalizing d d' with
  | nil =>
      simp only [upsert] at h
      cases d <;> (cases h; cases v <;> rfl)
  | cons s rest ih =>
      cases s with
      | field f =>
          cases d with
          | obj kvs =>
              simp only [upsert] at h
              cases hc : upsert ((lookupKey kvs f).getD (Json.obj [])) rest v with
              | ok c' =>
                  simp only [hc] at h
                  cases h
                  simp only [findJson, lookupKey_insertKey]
                  exact ih _ _ hc
              | error e => simp only [hc] at h; exact Except.noConfusion h
          | null => simp [upsert] at h
          | bool b => simp [upsert] at h
          | int n => simp [upsert] at h
          | float t => simp [upsert] at h
          | str s2 => simp [upsert] at h
          | arr xs => simp [upsert] at h
      | index i =>
          cases d with
          | arr xs =>
              simp only [upsert] at h
              cases hg : xs.get? i with
              | some c =>
                  simp only [hg] at h
                  cases hc : upsert c rest v with
                  | ok c' =>
                      simp only [hc] at h
                      cases h
                      simp only [findJson, get?_set_self xs i c c' hg]
                      exact ih _ _ hc
                  | error e => simp only [hc] at h; exact Except.noConfusion h
              | none => simp only [hg] at h; exact Except.noConfusion h
          | null => simp [upsert] at h
          | bool b => simp [upsert] at h
          | int n => simp [upsert] at h
          | float t => simp [upsert] at h
          | str s2 => simp [upsert] at h
          | obj kvs => simp [upsert] at h

/-- A path that resolves can always be written through: `upsert` only
conflicts on structure the resolution already ruled out. -/
theorem find_upsert_ok (steps : List Step) (d w v : Json)
    (h : findJson d steps = some w) : ∃ d', upsert d steps v = Except.ok d' := by
  induction steps generalizing d w with
  | nil => cases d <;> exact ⟨v, rfl⟩
  | cons s rest ih =>
      cases s with
      | field f =>
          cases d with
          | obj kvs =>
              simp only [findJson] at h
              cases hl : lookupKey kvs f with
              | some c =>
                  simp only [hl] at h
                  obtain ⟨c', hc⟩ := ih c w h
                  refine ⟨Json.obj (insertKey kvs f c'), ?_⟩
                  simp only [upsert, hl, Option.getD_some, hc]
              | none => simp only [hl] at h; exact Option.noConfusion h
          | null => simp [findJson] at h
          | bool b => simp [findJson] at h
          | int n => simp [findJson] at h
          | float t => simp [findJson] at h
          | str s2 => simp [findJson] at h
          | arr xs => simp [findJson] at h
      | index i =>
          cases d with
          | arr xs =>
              simp only [findJson] at h
              cases hg : xs.get? i with
              | some c =>
                  simp only [hg] at h
                  obtain ⟨c', hc⟩ := ih c w h
                  refine ⟨Json.arr (xs.set i c'), ?_⟩
                  simp only [upsert, hg, hc]
              | none => simp only [hg] at h; exact Option.noConfusion h
          | null => simp [findJson] at h
          | bool b => simp [findJson] at h
          | int n => simp [findJson] at h
          | float t => simp [findJson] at h
          | str s2 => simp [findJson] at h
          | obj kvs => simp [findJson] at h

theorem get_eq_of_find (doc : Json) (p : String) (steps : List Step) (v : Json)
    (hp : parsePath p = Except.ok steps) (hf : findJson doc steps = some v) :
    get_value_by_path doc p = pyView v := by
  unfold get_value_by_path
  simp only [hp, hf]
  cases v <;> rfl

theorem get_none_of_find_none (doc : Json) (p : String) (steps : List Step)
    (hp : parsePath p = Except.ok steps) (hf : findJson doc steps = none) :
    get_value_by_path doc p = none := by
  unfold get_value_by_path
  simp only [hp, hf]

theorem get_some_elim (doc : Json) (p : String) (v : Json)
    (h : get_value_by_path doc p = some v) :
    ∃ steps, parsePath p = Except.ok steps ∧ findJson doc steps = some v
      ∧ ¬(v = Json.null) := by
  unfold get_value_by_path at h
  cases hp : parsePath p with
  | error e => simp only [hp] at h; exact Option.noConfusion h
  | ok steps =>
      simp only [hp] at h
      cases hf : findJson doc steps with
      | none => simp only [hf] at h; exact Option.noConfusion h
      | some w =>
          simp only [hf] at h
          cases w <;>
            first
              | exact Option.noConfusion h
              | (cases h; exact ⟨steps, rfl, hf, fun hx => Json.noConfusion hx⟩)

/-- Removing a path whose final step is a map key really removes it: the
path no longer resolves afterwards. -/
theorem find_removeGo_fieldlast_none (steps : List Step) (d w : Json)
    (hlast : isFieldLast steps = true) (hf : findJson d steps = some w) :
    findJson (removeGo d steps) steps = none := by
  induction steps generalizing d w with
  | nil => simp [isFieldLast] at hlast
  | cons s rest ih =>
      cases s with
      | field f =>
          cases d with
          | obj kvs =>
              simp only [findJson] at hf
              cases hl : lookupKey kvs f with
              | none => rw [hl] at hf; exact Option.noConfusion hf
              | some c =>
                  rw [hl] at hf
                  cases rest with
                  | nil =>
                      simp only [removeGo, findJson, lookupKey_deleteKey]
                  | cons r rs =>
                      simp only [isFieldLast] at hlast
                      simp only [removeGo, hl, findJson, lookupKey_insertKey]
                      exact ih _ _ hlast hf
          | null => simp [findJson] at hf
          | bool b => simp [findJson] at hf
          | int n => simp [findJson] at hf
          | float t => simp [findJson] at hf
          | str s2 => simp [findJson] at hf
          | arr xs => simp [findJson] at hf
      | index i =>
          cases d with
          | arr xs =>
              simp only [findJson] at hf
              cases hg : xs.get? i with
              | none => rw [hg] at hf; exact Option.noConfusion hf
              | some c =>
                  rw [hg] at hf
                  cases rest with
                  | nil => simp [isFieldLast] at hlast
                  | cons r rs =>
                      simp only [isFieldLast] at hlast
                      simp only [removeGo, hg, findJson,
                        get?_set_self xs i c _ hg]
                      exact ih _ _ hlast hf
          | null => simp [findJson] at hf
          | bool b => simp [findJson] at hf
          | int n => simp [findJson] at hf
          | float t => simp [findJson] at hf
          | str s2 => simp [findJson] at hf
          | obj kvs => simp [findJson] at hf

/-- After `removeSteps` on a field-final path, the path does not resolve
(whether or not it resolved before). -/
theorem find_removeSteps_fieldlast_none (steps : List Step) (d : Json)
    (hlast : isFieldLast steps = true) :
    findJson (removeSteps d steps) steps = none := by
  cases steps with
  | nil => simp [isFieldLast] at hlast
  | cons s rest =>
      cases hf : findJson d (s :: rest) with
      | some w =>
          simp only [removeSteps, hf, Option.isSome, if_true]
          exact find_removeGo_fieldlast_none _ _ _ hlast hf
      | none =>
          simp only [removeSteps, hf, Option.isSome, Bool.false_eq_true,
            if_false]

/-- A path that does not resolve makes `removeSteps` a no-op. -/
theorem removeSteps_of_find_none (steps : List Step) (d : Json)
    (hf : findJson d steps = none) : removeSteps d steps = d := by
  cases steps with
  | nil => rfl
  | cons s rest =>
      simp only [removeSteps, hf, Option.isSome, Bool.false_eq_true, if_false]

theorem mapE_ok (f : Json → Except Err Json) (l l' : List Json)
    (h : mapE f l = Except.ok l') :
    l'.length = l.length ∧
      ∀ i (hi : i < l.length) (hi' : i < l'.length),
        f (l.get ⟨i, hi⟩) = Except.ok (l'.get ⟨i, hi'⟩) := by
  induction l generalizing l' with
  | nil =>
      simp only [mapE] at h
      cases h
      exact ⟨rfl, fun i hi _ => absurd hi (Nat.not_lt_zero i)⟩
  | cons o os ih =>
      simp only [mapE] at h
      cases ho : f o with
      | error e => rw [ho] at h; exact Except.noConfusion h
      | ok o' =>
          rw [ho] at h
          cases hos : mapE f os with
          | error e => rw [hos] at h; exact Except.noConfusion h
          | ok os' =>
              rw [hos] at h
              cases h
              obtain ⟨hlen, hpt⟩ := ih os' hos
              refine ⟨by simp [hlen], ?_⟩
              intro i hi hi'
              cases i with
              | zero => exact ho
              | succ j =>
                  exact hpt j (Nat.lt_of_succ_lt_succ hi)
                    (Nat.lt_of_succ_lt_succ hi')

theorem csvPhase_ok (mapping : List (String × String))
    (rows : List (List (String × String))) (docs out : List Json)
    (h : csvPhase mapping rows docs = Except.ok out) :
    out.length = docs.length ∧
      ∀ i (hi : i < docs.length) (hi' : i < out.length),
        perObjCsv mapping rows (docs.get ⟨i, hi⟩) = Except.ok (out.get ⟨i, hi'⟩) := by
  induction rows generalizing docs with
  | nil =>
      simp only [csvPhase] at h
      cases h
      exact ⟨rfl, fun i hi hi' => rfl⟩
  | cons row rest ih =>
      simp only [csvPhase] at h
      cases hm : mapE (stepObj mapping row) docs with
      | error e => rw [hm] at h; exact Except.noConfusion h
      | ok docs' =>
          rw [hm] at h
          obtain ⟨len1, pt1⟩ := ih docs' h
          obtain ⟨len2, pt2⟩ := mapE_ok _ _ _ hm
          refine ⟨len1.trans len2, ?_⟩
          intro i hi hi'
          have hi2 : i < docs'.length := by omega
          simp only [perObjCsv, pt2 i hi hi2]
          exact pt1 i hi2 hi'

/-- Success test for a fallible engine operation (the run did not raise). -/
def isOkE {α : Type} : Except Err α → Bool
  | Except.ok _ => true
  | Except.error _ => false

/-- Runtime type stored at a path, through the engine's own resolution
(`None` for an absent path or a null leaf). -/
def typeAt (d : Json) (p : String) : Option PyType :=
  (get_value_by_path d p).map get_type_from_value

theorem pyView_of_ne_null (v : Json) (h : ¬(v = Json.null)) : pyView v = some v := by
  cases v <;> simp_all [pyView]

theorem containerMismatch_type (current casted : Json)
    (hb : containerMismatch current casted = false)
    (h : get_type_from_value current = PyType.listT
      ∨ get_type_from_value current = PyType.dictT) :
    get_type_from_value casted = get_type_from_value current := by
  cases current <;> cases casted <;> simp_all [containerMismatch, get_type_from_value]

/-- C3: applying the table merge to document with id "1" and integer
count 5, using row count "9" and mapping count to the count path,
yields integer count 9: the raw text is cast to the pre-existing field's
integer type, not stored as a string. -/
theorem c3_scenario_a :
    update_from_csv [("ID", "1"), ("count", "9")]
      (Json.obj [("id", Json.str "1"), ("count", Json.int 5)])
      [("count", "$.count")]
    = Except.ok (Json.obj [("id", Json.str "1"), ("count", Json.int 9)]) := rfl

/-- C1 counterexample: with the same document but row text "abc", the
integer parse fails, `cast_value` falls back to the raw string, and the
merge writes it — the field's runtime type changes from int to str, so
the table merge does not always preserve the TypeTag of an existing
field. -/
theorem c1_counterexample :
    get_value_by_path (Json.obj [("id", Json.str "1"), ("count", Json.int 5)])
        "$.count" = some (Json.int 5)
    ∧ update_from_csv [("ID", "1"), ("count", "abc")]
        (Json.obj [("id", Json.str "1"), ("count", Json.int 5)])
        [("count", "$.count")]
      = Except.ok (Json.obj [("id", Json.str "1"), ("count", Json.str "abc")])
    ∧ get_type_from_value (Json.int 5) = PyType.intT
    ∧ get_type_from_value (Json.str "abc") = PyType.strT :=
  ⟨rfl, rfl, rfl, rfl⟩

/-- C1 (amended): a table-merge field update preserves the runtime type
of an existing (non-null) value whenever the cast of the row text to that
type yields a value of that type, or the current value is a container
(a mismatched container cast is skipped, leaving the document unchanged);
a failed numeric cast, however, stores the raw string (see the
counterexample). -/
theorem c1_type_preservation :
    (∀ (doc : Json) (p raw : String) (current : Json),
        get_value_by_path doc p = some current →
        (get_type_from_value (cast_value raw (get_type_from_value current))
            = get_type_from_value current
          ∨ get_type_from_value current = PyType.listT
          ∨ get_type_from_value current = PyType.dictT) →
        isOkE (csvFieldStep doc p raw) = true
          ∧ ∀ d', csvFieldStep doc p raw = Except.ok d' →
              typeAt d' p = some (get_type_from_value current))
    ∧ (∀ (doc : Json) (p raw : String) (current : Json),
        get_value_by_path doc p = some current →
        containerMismatch current (cast_value raw (get_type_from_value current)) = true →
        csvFieldStep doc p raw = Except.ok doc) := by
  constructor
  · intro doc p raw current hget hdisj
    obtain ⟨steps, hp, hf, hnn⟩ := get_some_elim doc p current hget
    cases hb : containerMismatch current (cast_value raw (get_type_from_value current)) with
    | true =>
        have hstep : csvFieldStep doc p raw = Except.ok doc := by
          simp only [csvFieldStep, hget, hb, if_true]
        refine ⟨by rw [hstep]; rfl, ?_⟩
        intro d' hd'
        rw [hstep] at hd'
        cases hd'
        simp only [typeAt, hget, Option.map]
    | false =>
        have hτ : get_type_from_value (cast_value raw (get_type_from_value current))
            = get_type_from_value current := by
          rcases hdisj with h1 | h2
          · exact h1
          · exact containerMismatch_type _ _ hb h2
        have hcn : ¬(cast_value raw (get_type_from_value current) = Json.null) := by
          intro hnull
          rw [hnull] at hτ
          cases current <;> simp_all [get_type_from_value]
        cases hs : set_value_by_path doc p
            (cast_value raw (get_type_from_value current)) with
        | ok d0 =>
            have hstep : csvFieldStep doc p raw = Except.ok d0 := by
              simp only [csvFieldStep, hget, hb, Bool.false_eq_true, if_false, hs]
            refine ⟨by rw [hstep]; rfl, ?_⟩
            intro d' hd'
            rw [hstep] at hd'
            cases hd'
            have hup : upsert doc steps (cast_value raw (get_type_from_value current))
                = Except.ok d0 := by
              unfold set_value_by_path at hs
              simpa only [hp] using hs
            have hfind := upsert_find steps doc _ d0 hup
            have hv := get_eq_of_find d0 p steps _ hp hfind
            rw [pyView_of_ne_null _ hcn] at hv
            simp only [typeAt, hv, Option.map, hτ]
        | error e =>
            have hstep : csvFieldStep doc p raw = Except.ok doc := by
              simp only [csvFieldStep, hget, hb, Bool.false_eq_true, if_false, hs]
            refine ⟨by rw [hstep]; rfl, ?_⟩
            intro d' hd'
            rw [hstep] at hd'
            cases hd'
            simp only [typeAt, hget, Option.map]
  · intro doc p raw current hget hb
    simp only [csvFieldStep, hget, hb, if_true]

/-- C1 witness: the amended theorem applied to the scenario-A inputs —
the cast of "9" to the existing integer type succeeds and the updated
field keeps the integer type. -/
theorem c1_type_preservation_witness :
    isOkE (csvFieldStep (Json.obj [("count", Json.int 5)]) "$.count" "9") = true
    ∧ typeAt (Json.obj [("count", Json.int 9)]) "$.count" = some PyType.intT :=
  ⟨(c1_type_preservation.1 (Json.obj [("count", Json.int 5)]) "$.count" "9"
      (Json.int 5) rfl (Or.inl rfl)).1,
   (c1_type_preservation.1 (Json.obj [("count", Json.int 5)]) "$.count" "9"
      (Json.int 5) rfl (Or.inl rfl)).2 (Json.obj [("count", Json.int 9)]) rfl⟩

/-- C2 counterexample: a directive whose inputs all load successfully
(path and value are ordinary JSON values) but whose path string does not
parse: `get_value_by_path` swallows the parse error and reports no
current value, and the unprotected `set_value_by_path` of the create
branch then raises, so `update_from_static_config` does not return
normally and the run aborts before saving. -/
theorem c2_counterexample :
    update_from_static_config (Json.obj [])
      [Json.obj [("path", Json.str "not a path"),
                 ("operation", Json.str "update"),
                 ("value", Json.int 1)]]
    = Except.error Err.parseErr := rfl

/-- C2 (amended): the failure isolation the code actually provides —
a table-merge field whose path resolves to an existing value never
raises (that branch is fully wrapped in `try/except`); a directive whose
operation is not `update` (remove, or malformed) never raises; and an
update directive whose path resolves to an existing value never raises.
Only the create branches' unprotected `set_value_by_path` can abort the
run (see the counterexample). -/
theorem c2_isolated_failures :
    (∀ (doc : Json) (p raw : String) (current : Json),
        get_value_by_path doc p = some current →
        isOkE (csvFieldStep doc p raw) = true)
    ∧ (∀ (doc : Json) (entry : List (String × Json)),
        opEq ((lookupVal entry "operation").getD Json.null) "update" = false →
        isOkE (applyStaticEntry doc entry) = true)
    ∧ (∀ (doc : Json) (entry : List (String × Json)) (current : Json),
        getValueByPathJ doc ((lookupVal entry "path").getD Json.null)
            = some current →
        isOkE (applyStaticEntry doc entry) = true) := by
  refine ⟨?_, ?_, ?_⟩
  · intro doc p raw current hget
    simp only [csvFieldStep, hget]
    cases hb : containerMismatch current (cast_value raw (get_type_from_value current)) with
    | true => simp only [if_true]; rfl
    | false =>
        simp only [Bool.false_eq_true, if_false]
        cases hs : set_value_by_path doc p
            (cast_value raw (get_type_from_value current)) <;> rfl
  · intro doc entry hop
    simp only [applyStaticEntry, hop]
    split
    · rfl
    · split
      · rfl
      · simp only [Bool.false_eq_true, if_false]
        rfl
  · intro doc entry current hget
    simp only [applyStaticEntry, hget]
    split
    · rfl
    · split
      · rfl
      · split
        · split
          · rfl
          · split
            · rfl
            · cases hpath : (lookupVal entry "path").getD Json.null with
              | str s =>
                  rw [hpath] at hget
                  simp only [getValueByPathJ] at hget
                  obtain ⟨steps, hp, hf, _⟩ := get_some_elim doc s current hget
                  obtain ⟨d', hup⟩ := find_upsert_ok steps doc current
                    ((lookupVal entry "value").getD Json.null) hf
                  simp only [setValueByPathJ, set_value_by_path, hp, hup]
                  rfl
              | null => rw [hpath] at hget; simp [getValueByPathJ] at hget
              | bool b => rw [hpath] at hget; simp [getValueByPathJ] at hget
              | int n => rw [hpath] at hget; simp [getValueByPathJ] at hget
              | float t => rw [hpath] at hget; simp [getValueByPathJ] at hget
              | arr xs => rw [hpath] at hget; simp [getValueByPathJ] at hget
              | obj kvs => rw [hpath] at hget; simp [getValueByPathJ] at hget
        · rfl

/-- C2 witness: the three protected situations at concrete inputs — an
existing-value table field, a remove directive, and an update directive
whose path resolves — all return normally. -/
theorem c2_isolated_failures_witness :
    isOkE (csvFieldStep (Json.obj [("count", Json.int 5)]) "$.count" "abc") = true
    ∧ isOkE (applyStaticEntry (Json.obj [("x", Json.int 2)])
        [("path", Json.str "$.x"), ("operation", Json.str "remove")]) = true
    ∧ isOkE (applyStaticEntry (Json.obj [("flag", Json.str "yes")])
        [("path", Json.str "$.flag"), ("operation", Json.str "update"),
         ("value", Json.bool true)]) = true :=
  ⟨c2_isolated_failures.1 (Json.obj [("count", Json.int 5)]) "$.count" "abc"
      (Json.int 5) rfl,
   c2_isolated_failures.2.1 (Json.obj [("x", Json.int 2)])
      [("path", Json.str "$.x"), ("operation", Json.str "remove")] rfl,
   c2_isolated_failures.2.2 (Json.obj [("flag", Json.str "yes")])
      [("path", Json.str "$.flag"), ("operation", Json.str "update"),
       ("value", Json.bool true)] (Json.str "yes") rfl⟩

/-- C4: an update directive whose path resolves to an existing non-null
value of a different runtime type than the directive's value is skipped,
leaving the document unchanged (stated for any well-formed update
directive; the flag scenario of the spec is the witness). -/
theorem c4_type_mismatch_skip :
    ∀ (doc : Json) (entry : List (String × Json)) (path v current : Json),
      lookupVal entry "path" = some path →
      lookupVal entry "operation" = some (Json.str "update") →
      lookupVal entry "value" = some v →
      getValueByPathJ doc path = some current →
      ¬(get_type_from_value current = get_type_from_value v) →
      applyStaticEntry doc entry = Except.ok doc := by
  intro doc entry path v current hpath hop hval hget hne
  have hgets : ∃ s, path = Json.str s ∧ get_value_by_path doc s = some current := by
    cases path <;> simp_all [getValueByPathJ]
  obtain ⟨s, hps, hget'⟩ := hgets
  obtain ⟨steps, hp, hf, hnn⟩ := get_some_elim doc s current hget'
  have hs0 : ¬(s = "") := by
    intro h0
    rw [h0] at hp
    exact Except.noConfusion hp
  have htr : pyTruthy (Json.str s) = true := by
    simp [pyTruthy, hs0]
  simp only [applyStaticEntry, hpath, hop, hval, Option.getD_some, hps]
  rw [if_neg (by rw [htr]; intro hc; rcases hc with hc | hc <;> exact hc rfl)]
  rw [if_neg (show ¬¬(opEq (Json.str "update") "update"
        || opEq (Json.str "update") "remove") = true from fun hc => hc rfl)]
  rw [if_pos (show opEq (Json.str "update") "update" = true from rfl)]
  rw [if_neg (show ¬((some v : Option Json).isNone = true) from by simp)]
  rw [hps] at hget
  simp only [hget]
  rw [if_pos hne]

/-- C4 witness: scenario C — directive updating the string-valued flag
with boolean true is skipped and the document is unchanged. -/
theorem c4_type_mismatch_skip_witness :
    applyStaticEntry (Json.obj [("flag", Json.str "yes")])
      [("path", Json.str "$.flag"), ("operation", Json.str "update"),
       ("value", Json.bool true)]
    = Except.ok (Json.obj [("flag", Json.str "yes")]) :=
  c4_type_mismatch_skip (Json.obj [("flag", Json.str "yes")])
    [("path", Json.str "$.flag"), ("operation", Json.str "update"),
     ("value", Json.bool true)]
    (Json.str "$.flag") (Json.bool true) (Json.str "yes")
    rfl rfl rfl rfl (by intro h; cases h)

/-- C6 counterexample: removing a sequence index shifts the later
elements, so the path still resolves afterwards (to the shifted element,
not NotFound) and a second remove deletes another element instead of
being a no-op. -/
theorem c6_counterexample :
    remove_value_by_path (Json.obj [("a", Json.arr [Json.int 1, Json.int 2])])
        "$.a[0]" = Json.obj [("a", Json.arr [Json.int 2])]
    ∧ get_value_by_path (Json.obj [("a", Json.arr [Json.int 2])]) "$.a[0]"
        = some (Json.int 2)
    ∧ remove_value_by_path (Json.obj [("a", Json.arr [Json.int 2])]) "$.a[0]"
        = Json.obj [("a", Json.arr [])] :=
  ⟨rfl, rfl, rfl⟩

/-- C6 (amended): for a path whose final step is a map key, remove
followed by resolve returns NotFound and a second remove is a no-op; and
remove on any path that does not resolve leaves the document unchanged.
Deleting a sequence index instead shifts later elements (see the
counterexample). -/
theorem c6_remove_resolve :
    (∀ (doc : Json) (p : String) (steps : List Step),
        parsePath p = Except.ok steps → isFieldLast steps = true →
        get_value_by_path (remove_value_by_path doc p) p = none
          ∧ remove_value_by_path (remove_value_by_path doc p) p
              = remove_value_by_path doc p)
    ∧ (∀ (doc : Json) (p : String) (steps : List Step),
        parsePath p = Except.ok steps → findJson doc steps = none →
        remove_value_by_path doc p = doc) := by
  constructor
  · intro doc p steps hp hlast
    have hnone : findJson (removeSteps doc steps) steps = none :=
      find_removeSteps_fieldlast_none steps doc hlast
    have hrem : remove_value_by_path doc p = removeSteps doc steps := by
      simp only [remove_value_by_path, hp]
    constructor
    · rw [hrem]
      exact get_none_of_find_none _ p steps hp hnone
    · rw [hrem]
      simp only [remove_value_by_path, hp]
      exact removeSteps_of_find_none steps _ hnone
  · intro doc p steps hp hf
    simp only [remove_value_by_path, hp]
    exact removeSteps_of_find_none steps doc hf

/-- C6 witness: the amended theorem applied to a nested map path — after
removing the inner key the path no longer resolves and a second remove
changes nothing — and to a path that does not resolve at all. -/
theorem c6_remove_resolve_witness :
    get_value_by_path
        (remove_value_by_path (Json.obj [("a", Json.obj [("b", Json.int 1)])])
          "$.a.b") "$.a.b" = none
    ∧ remove_value_by_path
        (remove_value_by_path (Json.obj [("a", Json.obj [("b", Json.int 1)])])
          "$.a.b") "$.a.b"
      = remove_value_by_path (Json.obj [("a", Json.obj [("b", Json.int 1)])])
          "$.a.b"
    ∧ remove_value_by_path (Json.obj [("x", Json.int 2)]) "$.missing"
      = Json.obj [("x", Json.int 2)] :=
  ⟨(c6_remove_resolve.1 (Json.obj [("a", Json.obj [("b", Json.int 1)])])
      "$.a.b" [Step.field "a", Step.field "b"] rfl rfl).1,
   (c6_remove_resolve.1 (Json.obj [("a", Json.obj [("b", Json.int 1)])])
      "$.a.b" [Step.field "a", Step.field "b"] rfl rfl).2,
   c6_remove_resolve.2 (Json.obj [("x", Json.int 2)]) "$.missing"
      [Step.field "missing"] rfl rfl⟩

/-- C7 counterexample: upserting through a sequence-shaped prefix with a
field step fails loudly with a PathConflict instead of writing, so the
write/read round trip does not hold for every syntactically valid path;
the unchanged document still resolves the path to NotFound, not to the
written value. -/
theorem c7_counterexample :
    set_value_by_path (Json.obj [("a", Json.arr [Json.int 1])]) "$.a.b"
        (Json.int 42) = Except.error Err.conflict
    ∧ get_value_by_path (Json.obj [("a", Json.arr [Json.int 1])]) "$.a.b"
        = none :=
  ⟨rfl, rfl⟩

/-- C7 (amended): whenever the upsert itself succeeds — including when
intermediate maps had to be created — resolving the same path afterwards
returns the written value (as Python reports it: a written null reads
back as the `None` sentinel). -/
theorem c7_upsert_roundtrip :
    ∀ (doc : Json) (p : String) (v d' : Json),
      set_value_by_path doc p v = Except.ok d' →
      get_value_by_path d' p = pyView v := by
  intro doc p v d' h
  unfold set_value_by_path at h
  cases hp : parsePath p with
  | error e => simp only [hp] at h; exact Except.noConfusion h
  | ok steps =>
      simp only [hp] at h
      exact get_eq_of_find d' p steps v hp (upsert_find steps doc v d' h)

/-- C7 witness: the round trip at a concrete write that creates an
intermediate map entry. -/
theorem c7_upsert_roundtrip_witness :
    set_value_by_path (Json.obj [("a", Json.obj [])]) "$.a.b" (Json.int 7)
      = Except.ok (Json.obj [("a", Json.obj [("b", Json.int 7)])])
    ∧ get_value_by_path (Json.obj [("a", Json.obj [("b", Json.int 7)])]) "$.a.b"
      = some (Json.int 7) :=
  ⟨rfl, c7_upsert_roundtrip (Json.obj [("a", Json.obj [])]) "$.a.b"
      (Json.int 7) (Json.obj [("a", Json.obj [("b", Json.int 7)])]) rfl⟩

/-- C9: `cast_value` is fail-soft — whenever its body fails (in
particular on a failed integer parse, a failed float parse, or a failed
`json.loads` of a nonempty token for a list or dict target) it returns
the original string unchanged, and an empty token for a list or dict
target yields the empty container of that kind.  The function is total:
every failure is converted to the fallback, never raised. -/
theorem c9_cast_failsoft :
    (∀ (s : String) (t : PyType) (e : Err),
        castValueBody s t = Except.error e → cast_value s t = Json.str s)
    ∧ (∀ s : String, parseIntPy s = none → cast_value s PyType.intT = Json.str s)
    ∧ (∀ s : String, parseFloatPy s = none → cast_value s PyType.floatT = Json.str s)
    ∧ (∀ (s : String) (e : Err), ¬(s = "") → jsonLoads s = Except.error e →
        cast_value s PyType.listT = Json.str s
          ∧ cast_value s PyType.dictT = Json.str s)
    ∧ cast_value "" PyType.listT = Json.arr []
    ∧ cast_value "" PyType.dictT = Json.obj [] := by
  refine ⟨?_, ?_, ?_, ?_, rfl, rfl⟩
  · intro s t e h
    simp only [cast_value, h]
  · intro s h
    simp only [cast_value, castValueBody, h]
  · intro s h
    simp only [cast_value, castValueBody, h]
  · intro s e hne h
    constructor <;> simp only [cast_value, castValueBody, if_neg hne, h]

/-- C9 witness: concrete failed casts fall back to the original string. -/
theorem c9_cast_failsoft_witness :
    cast_value "abc" PyType.intT = Json.str "abc"
    ∧ cast_value "x" PyType.floatT = Json.str "x"
    ∧ cast_value "abc" PyType.listT = Json.str "abc"
    ∧ cast_value "abc" PyType.dictT = Json.str "abc" :=
  ⟨c9_cast_failsoft.2.1 "abc" rfl,
   c9_cast_failsoft.2.2.1 "x" rfl,
   (c9_cast_failsoft.2.2.2.1 "abc" Err.parseErr (by decide) rfl).1,
   (c9_cast_failsoft.2.2.2.1 "abc" Err.parseErr (by decide) rfl).2⟩

/-- C10: a null leaf is reported as the `None` sentinel by
`get_value_by_path`, so both mergers take their create-new-path branch
there: the table merge overwrites the null with the row text cast as a
string, and an override update overwrites the null with the directive
value verbatim, with no runtime-type comparison in either case. -/
theorem c10_null_leaf :
    (∀ (doc : Json) (p raw : String) (steps : List Step),
        parsePath p = Except.ok steps → findJson doc steps = some Json.null →
        csvFieldStep doc p raw = set_value_by_path doc p (Json.str raw))
    ∧ (∀ (doc : Json) (entry : List (String × Json)) (ps : String) (v : Json)
          (steps : List Step),
        lookupVal entry "path" = some (Json.str ps) →
        lookupVal entry "operation" = some (Json.str "update") →
        lookupVal entry "value" = some v →
        parsePath ps = Except.ok steps → findJson doc steps = some Json.null →
        applyStaticEntry doc entry = set_value_by_path doc ps v) := by
  constructor
  · intro doc p raw steps hp hf
    have hg : get_value_by_path doc p = none := get_eq_of_find doc p steps Json.null hp hf
    simp only [csvFieldStep, hg]
    rfl
  · intro doc entry ps v steps hpath hop hval hp hf
    have hg : get_value_by_path doc ps = none := get_eq_of_find doc ps steps Json.null hp hf
    have hs0 : ¬(ps = "") := by
      intro h0
      rw [h0] at hp
      exact Except.noConfusion hp
    have htr : pyTruthy (Json.str ps) = true := by
      simp [pyTruthy, hs0]
    simp only [applyStaticEntry, hpath, hop, hval, Option.getD_some]
    rw [if_neg (by rw [htr]; intro hc; rcases hc with hc | hc <;> exact hc rfl)]
    rw [if_neg (show ¬¬(opEq (Json.str "update") "update"
          || opEq (Json.str "update") "remove") = true from fun hc => hc rfl)]
    rw [if_pos (show opEq (Json.str "update") "update" = true from rfl)]
    rw [if_neg (show ¬((some v : Option Json).isNone = true) from by simp)]
    simp only [getValueByPathJ, hg, setValueByPathJ]

/-- C10 witness: a document with a null leaf — the table merge writes the
raw text as a string and an override update writes its boolean value
verbatim, neither being blocked by a type check. -/
theorem c10_null_leaf_witness :
    csvFieldStep (Json.obj [("x", Json.null)]) "$.x" "5"
      = Except.ok (Json.obj [("x", Json.str "5")])
    ∧ applyStaticEntry (Json.obj [("x", Json.null)])
        [("path", Json.str "$.x"), ("operation", Json.str "update"),
         ("value", Json.bool true)]
      = Except.ok (Json.obj [("x", Json.bool true)]) :=
  ⟨(c10_null_leaf.1 (Json.obj [("x", Json.null)]) "$.x" "5"
      [Step.field "x"] rfl rfl).trans rfl,
   (c10_null_leaf.2 (Json.obj [("x", Json.null)])
      [("path", Json.str "$.x"), ("operation", Json.str "update"),
       ("value", Json.bool true)] "$.x" (Json.bool true)
      [Step.field "x"] rfl rfl rfl rfl rfl).trans rfl⟩

/-- C5: in the orchestrator's list branch, when the run returns
normally, every element of the result is its input element updated by
all CSV rows whose identifier matches it (in row order — so several
elements sharing an identifier all receive a matching row's update) and
then by all override directives, elements being processed in list
order. -/
theorem c5_list_branch :
    ∀ (docs : List Json) (rows : List (List (String × String)))
      (mapping : List (String × String)) (config : List Json) (out : List Json),
      mainListBranch docs rows mapping config = Except.ok out →
      out.length = docs.length ∧
        ∀ i (hi : i < docs.length) (hi' : i < out.length),
          perObj mapping rows config (docs.get ⟨i, hi⟩)
            = Except.ok (out.get ⟨i, hi'⟩) := by
  intro docs rows mapping config out h
  unfold mainListBranch at h
  cases hc : csvPhase mapping rows docs with
  | error e => simp only [hc] at h; exact Except.noConfusion h
  | ok mid =>
      simp only [hc] at h
      obtain ⟨lenA, ptA⟩ := csvPhase_ok mapping rows docs mid hc
      obtain ⟨lenB, ptB⟩ := mapE_ok _ mid out h
      refine ⟨lenB.trans lenA, ?_⟩
      intro i hi hi'
      have hiM : i < mid.length := by omega
      simp only [perObj, ptA i hi hiM]
      exact ptB i hiM hi'

/-- C5 witness: scenario E — two list elements sharing id "1" both
receive the update from the single matching row, then the (empty)
directive pass; each element's result equals its per-element pipeline. -/
theorem c5_list_branch_witness :
    mainListBranch
        [Json.obj [("id", Json.str "1"), ("x", Json.int 1)],
         Json.obj [("id", Json.str "1"), ("x", Json.int 2), ("z", Json.bool true)]]
        [[("ID", "1"), ("x", "5")]] [("x", "$.x")] []
      = Except.ok
        [Json.obj [("id", Json.str "1"), ("x", Json.int 5)],
         Json.obj [("id", Json.str "1"), ("x", Json.int 5), ("z", Json.bool true)]]
    ∧ perObj [("x", "$.x")] [[("ID", "1"), ("x", "5")]] []
        (Json.obj [("id", Json.str "1"), ("x", Json.int 1)])
      = Except.ok (Json.obj [("id", Json.str "1"), ("x", Json.int 5)])
    ∧ perObj [("x", "$.x")] [[("ID", "1"), ("x", "5")]] []
        (Json.obj [("id", Json.str "1"), ("x", Json.int 2), ("z", Json.bool true)])
      = Except.ok
          (Json.obj [("id", Json.str "1"), ("x", Json.int 5), ("z", Json.bool true)]) :=
  ⟨rfl,
   (c5_list_branch
      [Json.obj [("id", Json.str "1"), ("x", Json.int 1)],
       Json.obj [("id", Json.str "1"), ("x", Json.int 2), ("z", Json.bool true)]]
      [[("ID", "1"), ("x", "5")]] [("x", "$.x")] []
      [Json.obj [("id", Json.str "1"), ("x", Json.int 5)],
       Json.obj [("id", Json.str "1"), ("x", Json.int 5), ("z", Json.bool true)]]
      rfl).2 0 (by decide) (by decide),
   (c5_list_branch
      [Json.obj [("id", Json.str "1"), ("x", Json.int 1)],
       Json.obj [("id", Json.str "1"), ("x", Json.int 2), ("z", Json.bool true)]]
      [[("ID", "1"), ("x", "5")]] [("x", "$.x")] []
      [Json.obj [("id", Json.str "1"), ("x", Json.int 5)],
       Json.obj [("id", Json.str "1"), ("x", Json.int 5), ("z", Json.bool true)]]
      rfl).2 1 (by decide) (by decide)⟩

end JsonModifier
